import Mathlib

/-!
Shallow embedding of the core systems of the `my-perspective-game` repository:
the collision detector (`src/app/utils/CollisionDetection.ts`), the perspective
projection utilities with their memoization cache (`utils/perspective`), the
procedural tile generator and the game loop (`components/Game.tsx`).

Numbers are modelled as rationals (`ℚ`); the JavaScript `Infinity` that can
appear in a collision result's `distance` field is modelled as `Option ℚ`
with `none` standing for `Infinity`.
-/

namespace PerspectiveGame

/-- Tile coordinate record: `{ x, y }` from `CollisionDetection.ts`. -/
structure TileC where
  x : ℚ
  y : ℚ
deriving DecidableEq, Repr

/-- Severity levels of a collision result. -/
inductive Severity where
  | none
  | minor
  | major
  | fatal
deriving DecidableEq, Repr

/-- Collision type of a collision result. -/
inductive CollisionType where
  | none
  | offTrack
  | obstacle
  | boundary
deriving DecidableEq, Repr

/-- Collision result record. `distance = Option.none` models `Infinity`. -/
structure CollisionResult where
  hasCollision : Bool
  collisionType : CollisionType
  distance : Option ℚ
  posX : ℚ
  posY : ℚ
  severity : Severity
deriving DecidableEq, Repr

/-- Collision configuration (`CollisionConfig`).  `collisionMargin` is present
in the source but never read by any collision routine. -/
structure CollisionConfig where
  shipTolerance : ℚ
  lookAheadDistance : ℕ
  collisionMargin : ℚ
  enablePredictiveCollision : Bool

/-- Game boundaries (`GameBoundaries`). -/
structure GameBoundaries where
  minX : ℚ
  maxX : ℚ
  minY : ℚ
  maxY : ℚ

/-- The `no collision` result record that several branches of the detector
return: `{hasCollision: false, collisionType: none, distance: 0, position:
(ship, shipY), severity: none}`. -/
def noCollisionResult (shipPosition shipY : ℚ) : CollisionResult :=
  ⟨false, CollisionType.none, some 0, shipPosition, shipY, Severity.none⟩

/-- `getTilesAtPosition`: tiles whose `y` is within 1 of
`Math.floor(currentYLoop + shipY)`. -/
def getTilesAtPosition (pathTiles : List TileC) (currentYLoop shipY : ℚ) :
    List TileC :=
  let targetY : ℚ := (⌊currentYLoop + shipY⌋ : ℤ)
  pathTiles.filter (fun tile => |tile.y - targetY| < 1)

/-- `findValidTile`: first tile whose lane distance to the ship is within
`shipTolerance`. -/
def findValidTile (config : CollisionConfig) (tiles : List TileC)
    (shipPosition : ℚ) : Option TileC :=
  tiles.find? (fun tile => |tile.x - shipPosition| ≤ config.shipTolerance)

/-- `findNearestTile`: tile minimizing `|tile.x - shipPosition|`, scanning
left to right and keeping the earlier tile on ties. -/
def findNearestTile (tiles : List TileC) (shipPosition : ℚ) : Option TileC :=
  match tiles with
  | [] => Option.none
  | t :: rest =>
      some (rest.foldl
        (fun acc tile =>
          if |tile.x - shipPosition| < |acc.x - shipPosition| then tile else acc)
        t)

/-- `calculateSeverity`: severity graded by distance. -/
def calculateSeverity (distance : ℚ) : Severity :=
  if distance = 0 then Severity.fatal
  else if distance ≤ 2/10 then Severity.major
  else if distance ≤ 5/10 then Severity.minor
  else Severity.none

/-- Severity of an `Option ℚ` distance, where `none` models `Infinity`
(`Infinity` is not `0`, not `≤ 0.2`, not `≤ 0.5`, hence severity `none`). -/
def calculateSeverityO (distance : Option ℚ) : Severity :=
  match distance with
  | some d => calculateSeverity d
  | Option.none => Severity.none

/-- Body of the `for` loop of `checkPredictiveCollision`: `ahead` is the
current lookahead offset and `remaining` the number of iterations left. -/
def predictiveGo (config : CollisionConfig) (shipPosition shipY : ℚ)
    (pathTiles : List TileC) (currentYLoop : ℚ) :
    ℕ → ℕ → CollisionResult
  | _, 0 => noCollisionResult shipPosition shipY
  | ahead, Nat.succ remaining =>
      let futureY : ℚ := shipY + (ahead : ℚ)
      let futureTiles := getTilesAtPosition pathTiles currentYLoop futureY
      if futureTiles.isEmpty then
        ⟨true, CollisionType.offTrack, some (ahead : ℚ), shipPosition, futureY,
          Severity.minor⟩
      else
        match findValidTile config futureTiles shipPosition with
        | some _ =>
            predictiveGo config shipPosition shipY pathTiles currentYLoop
              (ahead + 1) remaining
        | Option.none =>
            match findNearestTile futureTiles shipPosition with
            | some nearest =>
                ⟨true, CollisionType.offTrack,
                  some ((ahead : ℚ) + |nearest.x - shipPosition|),
                  nearest.x, nearest.y, Severity.minor⟩
            | Option.none =>
                ⟨true, CollisionType.offTrack, Option.none, shipPosition,
                  futureY, Severity.minor⟩

/-- `checkPredictiveCollision`: scans `ahead = 1 .. lookAheadDistance`. -/
def checkPredictiveCollision (config : CollisionConfig)
    (shipPosition shipY : ℚ) (pathTiles : List TileC) (currentYLoop : ℚ) :
    CollisionResult :=
  predictiveGo config shipPosition shipY pathTiles currentYLoop 1
    config.lookAheadDistance

/-- `checkPathCollision`. -/
def checkPathCollision (config : CollisionConfig) (shipPosition shipY : ℚ)
    (pathTiles : List TileC) (currentYLoop : ℚ) : CollisionResult :=
  let currentTiles := getTilesAtPosition pathTiles currentYLoop shipY
  if currentTiles.isEmpty then
    let nearbyTiles := pathTiles.filter
      (fun tile => |tile.y - (currentYLoop + shipY)| ≤ 2)
    if nearbyTiles.isEmpty then
      if pathTiles.length < 5 then
        ⟨true, CollisionType.offTrack, some 0, shipPosition, shipY,
          Severity.minor⟩
      else
        ⟨true, CollisionType.offTrack, some 0, shipPosition, shipY,
          Severity.major⟩
    else
      noCollisionResult shipPosition shipY
  else
    match findValidTile config currentTiles shipPosition with
    | Option.none =>
        match findNearestTile currentTiles shipPosition with
        | some nearest =>
            let distance := |nearest.x - shipPosition|
            ⟨true, CollisionType.offTrack, some distance, nearest.x, nearest.y,
              calculateSeverity distance⟩
        | Option.none =>
            ⟨true, CollisionType.offTrack, Option.none, shipPosition, shipY,
              calculateSeverityO Option.none⟩
    | some _ =>
        if config.enablePredictiveCollision then
          let predictiveResult := checkPredictiveCollision config shipPosition
            shipY pathTiles currentYLoop
          if predictiveResult.hasCollision then predictiveResult
          else noCollisionResult shipPosition shipY
        else
          noCollisionResult shipPosition shipY

/-- `checkBoundaryCollision`. -/
def checkBoundaryCollision (boundaries : GameBoundaries)
    (shipPosition shipY : ℚ) : CollisionResult :=
  if shipPosition < boundaries.minX ∨ boundaries.maxX ≤ shipPosition then
    ⟨true, CollisionType.boundary,
      some (min |shipPosition - boundaries.minX| |shipPosition - boundaries.maxX|),
      shipPosition, shipY, Severity.major⟩
  else if shipY < boundaries.minY ∨ boundaries.maxY < shipY then
    ⟨true, CollisionType.boundary,
      some (min |shipY - boundaries.minY| |shipY - boundaries.maxY|),
      shipPosition, shipY, Severity.major⟩
  else
    noCollisionResult shipPosition shipY

/-- `checkAllCollisions`: boundary check first, then path check. -/
def checkAllCollisions (config : CollisionConfig) (boundaries : GameBoundaries)
    (shipPosition shipY : ℚ) (pathTiles : List TileC) (currentYLoop : ℚ) :
    CollisionResult :=
  let boundaryResult := checkBoundaryCollision boundaries shipPosition shipY
  if boundaryResult.hasCollision then boundaryResult
  else
    let pathResult := checkPathCollision config shipPosition shipY pathTiles
      currentYLoop
    if pathResult.hasCollision then pathResult
    else noCollisionResult shipPosition shipY

/-! Perspective projection utilities (`utils/perspective`). -/

/-- `calculatePerspectiveScale`, pure computation: clamp `z` to be
non-negative, compute `viewerDistance / (viewerDistance + safeZ + 0.001)`,
and clamp the result to `[0.001, 10]`. -/
def calculatePerspectiveScale (z viewerDistance : ℚ) : ℚ :=
  let safeZ := if 0 ≤ z then z else 0
  let scale := viewerDistance / (viewerDistance + safeZ + 1/1000)
  max (1/1000) (min 10 scale)

/-- `transformPerspective`, pure computation (ignoring the cache). -/
def transformPerspectivePure (x y perspectivePointX perspectivePointY
    height : ℚ) : ℚ × ℚ :=
  let normalizedY := max 0 (min 1 (y / height))
  let z := (1 - normalizedY) * height
  let scale := calculatePerspectiveScale z (height * (8/10))
  let diffX := x - perspectivePointX
  let trX := perspectivePointX + diffX * scale
  let trY := perspectivePointY + scale * (height - perspectivePointY)
  (trX, trY)

/-- Memoization state of the perspective module: the two caches (association
lists keyed by the arguments, which is faithful because the string keys
`z_d` and `x_y_px_py_h` built from distinct numbers are distinct) and the
shared insertion counter. -/
structure PerspectiveCacheState where
  scaleCache : List ((ℚ × ℚ) × ℚ)
  pointCache : List ((ℚ × ℚ × ℚ × ℚ × ℚ) × (ℚ × ℚ))
  cacheSize : ℕ
deriving DecidableEq

/-- Lookup in an association-list cache (models `Map.get`; the string keys
built from distinct numbers are distinct, so keying by the argument tuple is
faithful). -/
def cacheLookup {α β : Type} [DecidableEq α] (cache : List (α × β)) (k : α) :
    Option β :=
  (cache.find? (fun e => e.1 = k)).map (fun e => e.2)

/-- Lookup in the scale cache. -/
def scaleLookup (s : PerspectiveCacheState) (k : ℚ × ℚ) : Option ℚ :=
  cacheLookup s.scaleCache k

/-- Lookup in the point cache. -/
def pointLookup (s : PerspectiveCacheState) (k : ℚ × ℚ × ℚ × ℚ × ℚ) :
    Option (ℚ × ℚ) :=
  cacheLookup s.pointCache k

/-- `clearCacheIfNeeded`: clear both caches once more than
`MAX_CACHE_SIZE = 1000` entries have been inserted. -/
def clearCacheIfNeeded (s : PerspectiveCacheState) : PerspectiveCacheState :=
  if 1000 < s.cacheSize then ⟨[], [], 0⟩ else s

/-- `calculatePerspectiveScale` with its memoization cache: return the cached
value on a hit, otherwise compute, insert, bump the counter and possibly
clear. -/
def calculatePerspectiveScaleM (z viewerDistance : ℚ)
    (s : PerspectiveCacheState) : ℚ × PerspectiveCacheState :=
  match scaleLookup s (z, viewerDistance) with
  | some v => (v, s)
  | Option.none =>
      let v := calculatePerspectiveScale z viewerDistance
      ( v
      , clearCacheIfNeeded
          ⟨((z, viewerDistance), v) :: s.scaleCache, s.pointCache,
            s.cacheSize + 1⟩ )

/-- `transformPerspective` with its memoization cache.  On a point-cache miss
it runs the stateful `calculatePerspectiveScaleM` (which may itself insert
into and clear the caches) and then inserts the computed point. -/
def transformPerspectiveM (x y perspectivePointX perspectivePointY height : ℚ)
    (s : PerspectiveCacheState) : (ℚ × ℚ) × PerspectiveCacheState :=
  let key := (x, y, perspectivePointX, perspectivePointY, height)
  match pointLookup s key with
  | some v => (v, s)
  | Option.none =>
      let normalizedY := max 0 (min 1 (y / height))
      let z := (1 - normalizedY) * height
      let scaleStep := calculatePerspectiveScaleM z (height * (8/10)) s
      let scale := scaleStep.1
      let s1 := scaleStep.2
      let diffX := x - perspectivePointX
      let result := (perspectivePointX + diffX * scale,
        perspectivePointY + scale * (height - perspectivePointY))
      ( result
      , clearCacheIfNeeded
          ⟨s1.scaleCache, (key, result) :: s1.pointCache, s1.cacheSize + 1⟩ )

/-- Well-formedness of the cache: every cached entry equals the pure
computation at its key.  The empty initial state is well formed, and both
memoized operations preserve well-formedness. -/
def CacheWF (s : PerspectiveCacheState) : Prop :=
  (∀ k v, scaleLookup s k = some v → v = calculatePerspectiveScale k.1 k.2) ∧
  (∀ k v, pointLookup s k = some v →
    v = transformPerspectivePure k.1 k.2.1 k.2.2.1 k.2.2.2.1 k.2.2.2.2)

/-! Procedural tile generation and the game loop (`components/Game.tsx`). -/

/-- `Math.floor(Math.random() * 3) - 1`: lateral step derived from one
random draw `q ∈ [0, 1)`. -/
def randomStep (q : ℚ) : ℤ :=
  ⌊q * 3⌋ - 1

/-- Lane clamp `Math.max(0, Math.min(NB_COLUMNS - 1, x))` with
`NB_COLUMNS = 7`. -/
def clampLane (x : ℚ) : ℚ :=
  max 0 (min 6 x)

/-- Generation loop of `generateInitialTiles`: the first 3 tiles keep
`lastX` unchanged (forced straight run), later tiles drift by a clamped
random step.  `i` is the loop index, `remaining` the iterations left,
`draws i` the random draw of iteration `i`. -/
def genInitGo (draws : ℕ → ℚ) : ℚ → ℤ → ℕ → ℕ → List TileC
  | _, _, _, 0 => []
  | lastX, lastY, i, Nat.succ remaining =>
      if i < 3 then
        ⟨lastX, (lastY : ℚ)⟩ ::
          genInitGo draws lastX (lastY + 1) (i + 1) remaining
      else
        let x' := clampLane (lastX + (randomStep (draws i) : ℚ))
        ⟨x', (lastY : ℚ)⟩ :: genInitGo draws x' (lastY + 1) (i + 1) remaining

/-- `generateInitialTiles`: `MIN_TILES = 16` tiles starting at lane
`Math.floor(7 / 2) = 3` and row `currentYLoop + 1`. -/
def generateInitialTiles (currentYLoop : ℤ) (draws : ℕ → ℚ) : List TileC :=
  genInitGo draws 3 (currentYLoop + 1) 0 16

/-- Generation loop of `generateTilesCoordinates` for the newly appended
tiles: each tile drifts from the previous lane by a clamped random step. -/
def genNewGo (draws : ℕ → ℚ) : ℚ → ℤ → ℕ → ℕ → List TileC
  | _, _, _, 0 => []
  | lastX, lastY, i, Nat.succ remaining =>
      let x' := clampLane (lastX + (randomStep (draws i) : ℚ))
      ⟨x', (lastY : ℚ)⟩ :: genNewGo draws x' (lastY + 1) (i + 1) remaining

/-- `generateTilesCoordinates` (the trim-and-extend window maintenance):
keep tiles with `y ≥ currentYLoop`; if fewer than `MIN_TILES = 16` remain,
append the missing number of tiles, continuing the lane from the last kept
tile (or the center lane 3) but starting the row at `currentYLoop + 1`. -/
def generateTilesCoordinates (prevTiles : List TileC) (currentYLoop : ℤ)
    (draws : ℕ → ℚ) : List TileC :=
  let validTiles := prevTiles.filter (fun tile => (currentYLoop : ℚ) ≤ tile.y)
  let tilesNeeded : ℤ := 16 - validTiles.length
  if tilesNeeded ≤ 0 then prevTiles
  else
    let lastX : ℚ :=
      match validTiles.getLast? with
      | some tile => tile.x
      | Option.none => 3
    validTiles ++ genNewGo draws lastX (currentYLoop + 1) 0 tilesNeeded.toNat

/-- Tile lists reachable by the generator: an initial generation, followed by
any number of trim-and-extend calls at non-decreasing `currentYLoop`
values.  The second component is the `currentYLoop` at which the list was
produced. -/
inductive ReachableTiles : List TileC → ℤ → Prop where
  | init (loop0 : ℤ) (draws : ℕ → ℚ) :
      ReachableTiles (generateInitialTiles loop0 draws) loop0
  | step (tiles : List TileC) (loop loop' : ℤ) (draws : ℕ → ℚ) :
      ReachableTiles tiles loop → loop ≤ loop' →
      ReachableTiles (generateTilesCoordinates tiles loop' draws) loop'

/-- Live tiles: tiles whose row has not yet scrolled past
(`tile.y ≥ currentYLoop`), i.e. the ones `generateTilesCoordinates` keeps. -/
def liveTileCount (tiles : List TileC) (currentYLoop : ℤ) : ℕ :=
  (tiles.filter (fun tile => (currentYLoop : ℚ) ≤ tile.y)).length

/-- Game status of `GameState` in `Game.tsx`. -/
inductive GameStatus where
  | playing
  | paused
  | gameOver
  | menu
deriving DecidableEq, Repr

/-- The mutable game state of `Game.tsx` (fields touched by the game loop). -/
structure GameState where
  currentOffsetY : ℚ
  currentYLoop : ℤ
  shipPosition : ℚ
  speed : ℚ
  score : ℤ
  lives : ℤ
  gameStatus : GameStatus
  lastCollision : Option CollisionResult
deriving DecidableEq

/-- Collision configuration actually used by the game: `DEFAULT_CONFIG`. -/
def defaultCollisionConfig : CollisionConfig :=
  ⟨4/10, 2, 1/10, true⟩

/-- Boundaries installed by `Game.tsx` at initialization:
`maxX = NB_COLUMNS - 1 = 6`. -/
def gameBoundaries : GameBoundaries :=
  ⟨0, 6, 0, (2 ^ 53 - 1 : ℚ)⟩

/-- `handleCollision`: apply the consequences of a collision result to the
game state (the deferred recenter scheduled on a `major` collision is an
asynchronous side effect outside this per-tick model). -/
def handleCollision (state : GameState) (collision : CollisionResult) :
    GameState :=
  let state := { state with lastCollision := some collision }
  match collision.severity with
  | Severity.fatal => { state with lives := 0, gameStatus := GameStatus.gameOver }
  | Severity.major =>
      let lives := state.lives - 1
      if lives ≤ 0 then
        { state with lives := lives, gameStatus := GameStatus.gameOver }
      else
        { state with lives := lives }
  | Severity.minor => { state with score := max 0 (state.score - 50) }
  | Severity.none => state

/-- Speed-progression policy of the game loop:
`Math.min(baseSpeed + Math.floor(score / 500) * 20, baseSpeed * 2)` with
`baseSpeed = SCROLL_SPEED = 240`. -/
def computeSpeed (score : ℤ) : ℚ :=
  min (240 + (⌊(score : ℚ) / 500⌋ : ℤ) * 20) (240 * 2)

/-- One state update of `gameLoop` while `gameStatus = playing` (the
rendering part of the tick draws but does not change the state).
`newShipPosition` is the position returned by the player controller's
`update`, `canvasHeight` the canvas height, `deltaTime` the elapsed time and
`draws` the random draws consumed if tiles are regenerated.  Returns the
updated state and tile list. -/
def gameLoopTick (state : GameState) (tiles : List TileC)
    (deltaTime canvasHeight newShipPosition : ℚ) (draws : ℕ → ℚ) :
    GameState × List TileC :=
  if state.gameStatus = GameStatus.playing then
    let state := { state with shipPosition := newShipPosition }
    let newOffsetY := state.currentOffsetY + state.speed * deltaTime
    let spacingY := (15/100) * canvasHeight
    let stepped :=
      if spacingY ≤ newOffsetY then
        ( { state with
              currentYLoop := state.currentYLoop + 1
            , currentOffsetY := newOffsetY - spacingY
            , score := state.score + 10 }
        , true )
      else
        ({ state with currentOffsetY := newOffsetY }, false)
    let state := stepped.1
    let newTiles :=
      if stepped.2 then generateTilesCoordinates tiles state.currentYLoop draws
      else tiles
    let collisionResult :=
      if 3 ≤ tiles.length then
        checkAllCollisions defaultCollisionConfig gameBoundaries
          state.shipPosition 0 tiles (state.currentYLoop : ℚ)
      else
        noCollisionResult state.shipPosition 0
    let state :=
      if collisionResult.hasCollision = true ∧
          collisionResult.severity ≠ Severity.none then
        handleCollision state collisionResult
      else
        { state with lastCollision := Option.none }
    let state := { state with speed := computeSpeed state.score }
    (state, newTiles)
  else
    (state, tiles)

/-! Helper lemmas about the collision detector. -/

theorem findValidTile_eq_none_iff (config : CollisionConfig)
    (tiles : List TileC) (shipPosition : ℚ) :
    findValidTile config tiles shipPosition = Option.none ↔
      ∀ tile ∈ tiles, config.shipTolerance < |tile.x - shipPosition| := by
  simp [findValidTile, List.find?_eq_none, not_le]

theorem nearestFoldl_spec (shipPosition : ℚ) (l : List TileC) (acc : TileC) :
    (l.foldl
        (fun acc tile =>
          if |tile.x - shipPosition| < |acc.x - shipPosition| then tile
          else acc) acc = acc ∨
      l.foldl
        (fun acc tile =>
          if |tile.x - shipPosition| < |acc.x - shipPosition| then tile
          else acc) acc ∈ l) ∧
    |(l.foldl
        (fun acc tile =>
          if |tile.x - shipPosition| < |acc.x - shipPosition| then tile
          else acc) acc).x - shipPosition| ≤ |acc.x - shipPosition| ∧
    ∀ u ∈ l,
      |(l.foldl
          (fun acc tile =>
            if |tile.x - shipPosition| < |acc.x - shipPosition| then tile
            else acc) acc).x - shipPosition| ≤ |u.x - shipPosition| := by
  induction l generalizing acc with
  | nil => simp
  | cons tile rest ih =>
      simp only [List.foldl_cons, List.mem_cons]
      by_cases h : |tile.x - shipPosition| < |acc.x - shipPosition|
      · rw [if_pos h]
        rcases ih tile with ⟨hmem, hle, hall⟩
        refine ⟨?_, le_of_lt (lt_of_le_of_lt hle h), ?_⟩
        · rcases hmem with h1 | h1
          · exact Or.inr (Or.inl h1)
          · exact Or.inr (Or.inr h1)
        · intro u hu
          rcases hu with rfl | hu
          · exact hle
          · exact hall u hu
      · rw [if_neg h]
        rcases ih acc with ⟨hmem, hle, hall⟩
        refine ⟨?_, hle, ?_⟩
        · rcases hmem with h1 | h1
          · exact Or.inl h1
          · exact Or.inr (Or.inr h1)
        · intro u hu
          rcases hu with rfl | hu
          · exact le_trans hle (le_of_not_lt h)
          · exact hall u hu

theorem findNearestTile_spec (tiles : List TileC) (shipPosition : ℚ)
    (h : tiles ≠ []) :
    ∃ nearest, findNearestTile tiles shipPosition = some nearest ∧
      nearest ∈ tiles ∧
      ∀ u ∈ tiles, |nearest.x - shipPosition| ≤ |u.x - shipPosition| := by
  match tiles, h with
  | t :: rest, _ =>
      rcases nearestFoldl_spec shipPosition rest t with ⟨hmem, hle, hall⟩
      refine ⟨_, rfl, ?_, ?_⟩
      · rcases hmem with h1 | h1
        · rw [h1]; exact List.mem_cons_self t rest
        · exact List.mem_cons_of_mem t h1
      · intro u hu
        rcases List.mem_cons.mp hu with rfl | hu
        · exact hle
        · exact hall u hu

theorem calculateSeverity_ne_fatal (distance : ℚ) (h : distance ≠ 0) :
    calculateSeverity distance ≠ Severity.fatal := by
  unfold calculateSeverity
  rw [if_neg h]
  split
  · exact fun hc => Severity.noConfusion hc
  · split
    · exact fun hc => Severity.noConfusion hc
    · exact fun hc => Severity.noConfusion hc

theorem predictiveGo_severity_ne_fatal (config : CollisionConfig)
    (shipPosition shipY : ℚ) (pathTiles : List TileC) (currentYLoop : ℚ)
    (ahead remaining : ℕ) :
    (predictiveGo config shipPosition shipY pathTiles currentYLoop ahead
        remaining).severity ≠ Severity.fatal := by
  induction remaining generalizing ahead with
  | zero =>
      intro hc
      exact Severity.noConfusion hc
  | succ n ih =>
      unfold predictiveGo
      dsimp only
      split
      · intro hc; exact Severity.noConfusion hc
      · split
        · exact ih (ahead + 1)
        · split
          · intro hc; exact Severity.noConfusion hc
          · intro hc; exact Severity.noConfusion hc

theorem checkPathCollision_severity_ne_fatal (config : CollisionConfig)
    (shipPosition shipY : ℚ) (pathTiles : List TileC) (currentYLoop : ℚ)
    (htol : 0 ≤ config.shipTolerance) :
    (checkPathCollision config shipPosition shipY pathTiles
        currentYLoop).severity ≠ Severity.fatal := by
  unfold checkPathCollision
  dsimp only
  split
  · split
    · split
      · intro hc; exact Severity.noConfusion hc
      · intro hc; exact Severity.noConfusion hc
    · intro hc; exact Severity.noConfusion hc
  · rename_i hne
    split
    · rename_i hnone
      split
      · rename_i nearest hnear
        have hmemtol := (findValidTile_eq_none_iff config _ shipPosition).mp
          hnone
        have hcur : getTilesAtPosition pathTiles currentYLoop shipY ≠ [] := by
          intro hnil
          rw [hnil] at hne
          simp at hne
        rcases findNearestTile_spec _ shipPosition hcur with
          ⟨n2, hn2, hn2mem, _⟩
        rw [hnear] at hn2
        cases hn2
        have hpos : 0 < |nearest.x - shipPosition| :=
          lt_of_le_of_lt htol (hmemtol nearest hn2mem)
        exact calculateSeverity_ne_fatal _ (ne_of_gt hpos)
      · intro hc; exact Severity.noConfusion hc
    · split
      · split
        · exact predictiveGo_severity_ne_fatal config shipPosition shipY
            pathTiles currentYLoop 1 config.lookAheadDistance
        · intro hc; exact Severity.noConfusion hc
      · intro hc; exact Severity.noConfusion hc

/-- C2: for every configuration with a non-negative `shipTolerance`, every
ship position, ship Y, tile window and `currentYLoop`, `checkAllCollisions`
never returns severity `fatal`: every off-track distance to a nearest
same-row tile strictly exceeds the tolerance, so the `distance == 0` case of
`calculateSeverity` is unreachable, and no other branch produces `fatal`. -/
theorem checkAllCollisions_never_fatal (config : CollisionConfig)
    (boundaries : GameBoundaries) (shipPosition shipY : ℚ)
    (pathTiles : List TileC) (currentYLoop : ℚ)
    (htol : 0 ≤ config.shipTolerance) :
    (checkAllCollisions config boundaries shipPosition shipY pathTiles
        currentYLoop).severity ≠ Severity.fatal := by
  unfold checkAllCollisions
  dsimp only
  split
  · unfold checkBoundaryCollision
    split
    · intro hc; exact Severity.noConfusion hc
    · split
      · intro hc; exact Severity.noConfusion hc
      · intro hc; exact Severity.noConfusion hc
  · split
    · exact checkPathCollision_severity_ne_fatal config shipPosition shipY
        pathTiles currentYLoop htol
    · intro hc; exact Severity.noConfusion hc

/-- Witness for C2 at a concrete input: the default configuration has a
non-negative tolerance and the detector does not report `fatal` there. -/
theorem checkAllCollisions_never_fatal_witness :
    0 ≤ defaultCollisionConfig.shipTolerance ∧
      (checkAllCollisions defaultCollisionConfig gameBoundaries 3 0
          [⟨3, 1⟩, ⟨3, 2⟩] 1).severity ≠ Severity.fatal :=
  ⟨by norm_num [defaultCollisionConfig],
    checkAllCollisions_never_fatal defaultCollisionConfig gameBoundaries 3 0
      [⟨3, 1⟩, ⟨3, 2⟩] 1 (by norm_num [defaultCollisionConfig])⟩

/-- C3: for every player lane position outside `[0, laneCount)` and every
ship Y inside the vertical bounds, `checkAllCollisions` returns the boundary
result — collision kind `boundary`, severity `major` — and that result is a
record built only from the position and the boundaries, hence independent of
the tile window contents (the boundary check short-circuits the path
check). -/
theorem checkAllCollisions_boundary_precedence (config : CollisionConfig)
    (laneCount minY maxY shipPosition shipY : ℚ) (pathTiles : List TileC)
    (currentYLoop : ℚ)
    (hout : shipPosition < 0 ∨ laneCount ≤ shipPosition)
    (hy1 : minY ≤ shipY) (hy2 : shipY ≤ maxY) :
    checkAllCollisions config ⟨0, laneCount, minY, maxY⟩ shipPosition shipY
        pathTiles currentYLoop =
      ⟨true, CollisionType.boundary,
        some (min |shipPosition - 0| |shipPosition - laneCount|),
        shipPosition, shipY, Severity.major⟩ := by
  have hb : checkBoundaryCollision ⟨0, laneCount, minY, maxY⟩ shipPosition
      shipY =
      ⟨true, CollisionType.boundary,
        some (min |shipPosition - 0| |shipPosition - laneCount|),
        shipPosition, shipY, Severity.major⟩ := by
    unfold checkBoundaryCollision
    rw [if_pos hout]
  unfold checkAllCollisions
  rw [hb]
  simp

/-- Witness for C3 at a concrete input: lane count 7, player position
`-0.5`, a nonempty tile window. -/
theorem checkAllCollisions_boundary_precedence_witness :
    checkAllCollisions defaultCollisionConfig ⟨0, 7, 0, 100⟩ (-(1/2)) 0
        [⟨3, 1⟩, ⟨3, 2⟩, ⟨3, 3⟩] 0 =
      ⟨true, CollisionType.boundary,
        some (min |(-(1/2) : ℚ) - 0| |(-(1/2) : ℚ) - 7|),
        -(1/2), 0, Severity.major⟩ :=
  checkAllCollisions_boundary_precedence defaultCollisionConfig 7 0 100
    (-(1/2)) 0 [⟨3, 1⟩, ⟨3, 2⟩, ⟨3, 3⟩] 0 (Or.inl (by norm_num))
    (by norm_num) (by norm_num)

/-- C4: if no tile of the window is within 2 rows of the ship's row
(`|tile.y - (currentYLoop + shipY)| ≤ 2` fails for every tile) and the
window holds fewer than 5 tiles in total — in particular when it is empty —
then `checkPathCollision` reports the startup-lenient off-track collision
with severity `minor`, never `major` or `fatal`. -/
theorem checkPathCollision_startup_leniency (config : CollisionConfig)
    (shipPosition shipY : ℚ) (pathTiles : List TileC) (currentYLoop : ℚ)
    (hfar : ∀ tile ∈ pathTiles, 2 < |tile.y - (currentYLoop + shipY)|)
    (hcount : pathTiles.length < 5) :
    checkPathCollision config shipPosition shipY pathTiles currentYLoop =
      ⟨true, CollisionType.offTrack, some 0, shipPosition, shipY,
        Severity.minor⟩ := by
  have hcur : getTilesAtPosition pathTiles currentYLoop shipY = [] := by
    unfold getTilesAtPosition
    rw [List.filter_eq_nil]
    intro tile htile
    simp only [decide_eq_true_eq, not_lt]
    have hfl : |(((⌊currentYLoop + shipY⌋ : ℤ) : ℚ)) -
        (currentYLoop + shipY)| < 1 := by
      rw [abs_sub_comm, abs_of_nonneg (by
        have := Int.floor_le (currentYLoop + shipY)
        linarith)]
      have := Int.lt_floor_add_one (currentYLoop + shipY)
      linarith
    have htri : |tile.y - (currentYLoop + shipY)| ≤
        |tile.y - ((⌊currentYLoop + shipY⌋ : ℤ) : ℚ)| +
          |(((⌊currentYLoop + shipY⌋ : ℤ) : ℚ)) - (currentYLoop + shipY)| :=
      abs_sub_le _ _ _
    have := hfar tile htile
    linarith [abs_nonneg (tile.y - ((⌊currentYLoop + shipY⌋ : ℤ) : ℚ))]
  have hnear : pathTiles.filter
      (fun tile => |tile.y - (currentYLoop + shipY)| ≤ 2) = [] := by
    rw [List.filter_eq_nil]
    intro tile htile
    simp only [decide_eq_true_eq, not_le]
    exact hfar tile htile
  unfold checkPathCollision
  rw [hcur]
  simp only [List.isEmpty_nil, if_true]
  rw [hnear]
  simp only [List.isEmpty_nil, if_true]
  rw [if_pos hcount]

/-- Witness for C4 at a concrete input: the empty tile window. -/
theorem checkPathCollision_startup_leniency_witness :
    checkPathCollision defaultCollisionConfig 3 0 [] 0 =
      ⟨true, CollisionType.offTrack, some 0, 3, 0, Severity.minor⟩ :=
  checkPathCollision_startup_leniency defaultCollisionConfig 3 0 [] 0
    (by intro tile htile; simp at htile) (by norm_num)

/-- C5: whenever `checkPathCollision` finds at least one tile at the
player's current row but none within `shipTolerance` of the player's lane
position, it returns an off-track result whose severity is graded by the
distance `d` to the nearest tile at that row: `d = 0` gives `fatal`,
`0 < d ≤ 0.2` gives `major`, `0.2 < d ≤ 0.5` gives `minor`, and `d > 0.5`
gives `none`. -/
theorem checkPathCollision_offtrack_grading (config : CollisionConfig)
    (shipPosition shipY : ℚ) (pathTiles : List TileC) (currentYLoop : ℚ)
    (hne : getTilesAtPosition pathTiles currentYLoop shipY ≠ [])
    (hfar : ∀ tile ∈ getTilesAtPosition pathTiles currentYLoop shipY,
      config.shipTolerance < |tile.x - shipPosition|) :
    ∃ nearest,
      findNearestTile (getTilesAtPosition pathTiles currentYLoop shipY)
          shipPosition = some nearest ∧
      nearest ∈ getTilesAtPosition pathTiles currentYLoop shipY ∧
      (∀ u ∈ getTilesAtPosition pathTiles currentYLoop shipY,
        |nearest.x - shipPosition| ≤ |u.x - shipPosition|) ∧
      checkPathCollision config shipPosition shipY pathTiles currentYLoop =
        ⟨true, CollisionType.offTrack, some |nearest.x - shipPosition|,
          nearest.x, nearest.y,
          calculateSeverity |nearest.x - shipPosition|⟩ ∧
      (|nearest.x - shipPosition| = 0 →
        calculateSeverity |nearest.x - shipPosition| = Severity.fatal) ∧
      (0 < |nearest.x - shipPosition| → |nearest.x - shipPosition| ≤ 2/10 →
        calculateSeverity |nearest.x - shipPosition| = Severity.major) ∧
      (2/10 < |nearest.x - shipPosition| → |nearest.x - shipPosition| ≤ 5/10 →
        calculateSeverity |nearest.x - shipPosition| = Severity.minor) ∧
      (5/10 < |nearest.x - shipPosition| →
        calculateSeverity |nearest.x - shipPosition| = Severity.none) := by
  rcases findNearestTile_spec _ shipPosition hne with
    ⟨nearest, hfind, hmem, hmin⟩
  have hvalid : findValidTile config
      (getTilesAtPosition pathTiles currentYLoop shipY) shipPosition =
      Option.none :=
    (findValidTile_eq_none_iff config _ shipPosition).mpr hfar
  refine ⟨nearest, hfind, hmem, hmin, ?_, ?_, ?_, ?_, ?_⟩
  · unfold checkPathCollision
    rw [if_neg (by
      intro hc
      exact hne (List.isEmpty_iff.mp hc))]
    rw [hvalid, hfind]
  · intro h0
    unfold calculateSeverity
    rw [if_pos h0]
  · intro h0 h2
    unfold calculateSeverity
    rw [if_neg (ne_of_gt h0), if_pos h2]
  · intro h2 h5
    unfold calculateSeverity
    rw [if_neg (by positivity : |nearest.x - shipPosition| ≠ 0),
      if_neg (not_le.mpr h2), if_pos h5]
  · intro h5
    unfold calculateSeverity
    rw [if_neg (by positivity : |nearest.x - shipPosition| ≠ 0),
      if_neg (not_le.mpr (lt_trans (by norm_num) h5)),
      if_neg (not_le.mpr h5)]

/-- Witness for C5 at a concrete input: one tile at the ship's row, two
lanes away. -/
theorem checkPathCollision_offtrack_grading_witness :
    ∃ nearest,
      findNearestTile (getTilesAtPosition [⟨1, 1⟩] 1 0) 3 = some nearest ∧
      nearest ∈ getTilesAtPosition [⟨1, 1⟩] 1 0 ∧
      (∀ u ∈ getTilesAtPosition [⟨1, 1⟩] 1 0,
        |nearest.x - 3| ≤ |u.x - 3|) ∧
      checkPathCollision defaultCollisionConfig 3 0 [⟨1, 1⟩] 1 =
        ⟨true, CollisionType.offTrack, some |nearest.x - 3|,
          nearest.x, nearest.y, calculateSeverity |nearest.x - 3|⟩ ∧
      (|nearest.x - 3| = 0 →
        calculateSeverity |nearest.x - 3| = Severity.fatal) ∧
      (0 < |nearest.x - 3| → |nearest.x - 3| ≤ 2/10 →
        calculateSeverity |nearest.x - 3| = Severity.major) ∧
      (2/10 < |nearest.x - 3| → |nearest.x - 3| ≤ 5/10 →
        calculateSeverity |nearest.x - 3| = Severity.minor) ∧
      (5/10 < |nearest.x - 3| →
        calculateSeverity |nearest.x - 3| = Severity.none) :=
  checkPathCollision_offtrack_grading defaultCollisionConfig 3 0 [⟨1, 1⟩] 1
    (by norm_num [getTilesAtPosition, List.filter])
    (by
      intro tile htile
      simp only [getTilesAtPosition, List.filter] at htile
      norm_num at htile
      rw [htile]
      norm_num [defaultCollisionConfig])

theorem findValidTile_isSome_mono (c1 c2 : CollisionConfig)
    (tiles : List TileC) (shipPosition : ℚ)
    (htol : c1.shipTolerance ≤ c2.shipTolerance)
    (h : (findValidTile c1 tiles shipPosition).isSome = true) :
    (findValidTile c2 tiles shipPosition).isSome = true := by
  simp only [findValidTile, List.find?_isSome, decide_eq_true_eq] at h ⊢
  rcases h with ⟨tile, hmem, hp⟩
  exact ⟨tile, hmem, le_trans hp htol⟩

theorem predictiveGo_mono (c1 c2 : CollisionConfig)
    (shipPosition shipY : ℚ) (pathTiles : List TileC) (currentYLoop : ℚ)
    (htol : c1.shipTolerance ≤ c2.shipTolerance) (ahead remaining : ℕ)
    (h : (predictiveGo c1 shipPosition shipY pathTiles currentYLoop ahead
        remaining).hasCollision = false) :
    (predictiveGo c2 shipPosition shipY pathTiles currentYLoop ahead
        remaining).hasCollision = false := by
  induction remaining generalizing ahead with
  | zero => simp [predictiveGo, noCollisionResult]
  | succ n ih =>
      unfold predictiveGo at h ⊢
      dsimp only at h ⊢
      by_cases he : (getTilesAtPosition pathTiles currentYLoop
          (shipY + (ahead : ℚ))).isEmpty = true
      · rw [if_pos he] at h
        simp at h
      · rw [if_neg he] at h ⊢
        cases hv1 : findValidTile c1
            (getTilesAtPosition pathTiles currentYLoop (shipY + (ahead : ℚ)))
            shipPosition with
        | none =>
            exfalso
            rw [hv1] at h
            cases hn : findNearestTile
                (getTilesAtPosition pathTiles currentYLoop
                  (shipY + (ahead : ℚ))) shipPosition <;>
              rw [hn] at h <;> simp at h
        | some w =>
            rw [hv1] at h
            have hsome2 : (findValidTile c2
                (getTilesAtPosition pathTiles currentYLoop
                  (shipY + (ahead : ℚ))) shipPosition).isSome = true :=
              findValidTile_isSome_mono c1 c2 _ shipPosition htol
                (by rw [hv1]; rfl)
            rcases Option.isSome_iff_exists.mp hsome2 with ⟨w2, hw2⟩
            rw [hw2]
            exact ih (ahead + 1) h

theorem checkPathCollision_mono (c1 c2 : CollisionConfig)
    (shipPosition shipY : ℚ) (pathTiles : List TileC) (currentYLoop : ℚ)
    (htol : c1.shipTolerance ≤ c2.shipTolerance)
    (hla : c1.lookAheadDistance = c2.lookAheadDistance)
    (hep : c1.enablePredictiveCollision = c2.enablePredictiveCollision)
    (h : (checkPathCollision c1 shipPosition shipY pathTiles
        currentYLoop).hasCollision = false) :
    checkPathCollision c2 shipPosition shipY pathTiles currentYLoop =
      noCollisionResult shipPosition shipY := by
  unfold checkPathCollision at h ⊢
  dsimp only at h ⊢
  by_cases he : (getTilesAtPosition pathTiles currentYLoop shipY).isEmpty =
      true
  · rw [if_pos he] at h ⊢
    by_cases hn : (pathTiles.filter
        (fun tile => |tile.y - (currentYLoop + shipY)| ≤ 2)).isEmpty = true
    · exfalso
      rw [if_pos hn] at h
      split at h <;> simp at h
    · rw [if_neg hn]
  · rw [if_neg he] at h ⊢
    cases hv1 : findValidTile c1
        (getTilesAtPosition pathTiles currentYLoop shipY) shipPosition with
    | none =>
        exfalso
        rw [hv1] at h
        cases hnear : findNearestTile
            (getTilesAtPosition pathTiles currentYLoop shipY)
            shipPosition <;>
          rw [hnear] at h <;> simp at h
    | some w =>
        rw [hv1] at h
        have hsome2 : (findValidTile c2
            (getTilesAtPosition pathTiles currentYLoop shipY)
            shipPosition).isSome = true :=
          findValidTile_isSome_mono c1 c2 _ shipPosition htol
            (by rw [hv1]; rfl)
        rcases Option.isSome_iff_exists.mp hsome2 with ⟨w2, hw2⟩
        rw [hw2]
        rw [← hep]
        by_cases hpe : c1.enablePredictiveCollision = true
        · rw [if_pos hpe] at h ⊢
          by_cases hpc : (checkPredictiveCollision c1 shipPosition shipY
              pathTiles currentYLoop).hasCollision = true
          · exfalso
            rw [if_pos hpc] at h
            rw [hpc] at h
            exact Bool.noConfusion h
          · have hpc2 : (checkPredictiveCollision c2 shipPosition shipY
                pathTiles currentYLoop).hasCollision = false := by
              unfold checkPredictiveCollision
              rw [← hla]
              exact predictiveGo_mono c1 c2 shipPosition shipY pathTiles
                currentYLoop htol 1 c1.lookAheadDistance
                (by
                  have hfalse : (checkPredictiveCollision c1 shipPosition
                      shipY pathTiles currentYLoop).hasCollision = false :=
                    Bool.eq_false_iff.mpr hpc
                  unfold checkPredictiveCollision at hfalse
                  exact hfalse)
            rw [if_neg (by rw [hpc2]; exact Bool.false_ne_true)]
        · rw [if_neg hpe]

/-- C6: for fixed ship position, ship Y, tile window and `currentYLoop` and
tolerances `t1 ≤ t2` (all other configuration fields equal), if the
collision result with `shipTolerance = t1` reports no collision then the
result with `shipTolerance = t2` is the no-collision result as well:
widening the tolerance never turns a `none` result into an off-track
result. -/
theorem checkAllCollisions_tolerance_mono (c1 c2 : CollisionConfig)
    (boundaries : GameBoundaries) (shipPosition shipY : ℚ)
    (pathTiles : List TileC) (currentYLoop : ℚ)
    (htol : c1.shipTolerance ≤ c2.shipTolerance)
    (hla : c1.lookAheadDistance = c2.lookAheadDistance)
    (hep : c1.enablePredictiveCollision = c2.enablePredictiveCollision)
    (h : (checkAllCollisions c1 boundaries shipPosition shipY pathTiles
        currentYLoop).hasCollision = false) :
    checkAllCollisions c2 boundaries shipPosition shipY pathTiles
        currentYLoop = noCollisionResult shipPosition shipY := by
  unfold checkAllCollisions at h ⊢
  dsimp only at h ⊢
  by_cases hb : (checkBoundaryCollision boundaries shipPosition
      shipY).hasCollision = true
  · exfalso
    rw [if_pos hb] at h
    rw [hb] at h
    exact Bool.noConfusion h
  · rw [if_neg hb] at h ⊢
    by_cases hp : (checkPathCollision c1 shipPosition shipY pathTiles
        currentYLoop).hasCollision = true
    · exfalso
      rw [if_pos hp] at h
      rw [hp] at h
      exact Bool.noConfusion h
    · have h1 : (checkPathCollision c1 shipPosition shipY pathTiles
          currentYLoop).hasCollision = false := Bool.eq_false_iff.mpr hp
      have h2 := checkPathCollision_mono c1 c2 shipPosition shipY pathTiles
        currentYLoop htol hla hep h1
      rw [h2]
      simp [noCollisionResult]

/-- Witness for C6 at a concrete input: tolerances `0.1 ≤ 0.4`, predictive
check disabled in both configurations, a supported ship. -/
theorem checkAllCollisions_tolerance_mono_witness :
    checkAllCollisions ⟨4/10, 2, 1/10, false⟩ ⟨0, 7, 0, 100⟩ 3 0 [⟨3, 1⟩] 1 =
      noCollisionResult 3 0 :=
  checkAllCollisions_tolerance_mono ⟨1/10, 2, 1/10, false⟩
    ⟨4/10, 2, 1/10, false⟩ ⟨0, 7, 0, 100⟩ 3 0 [⟨3, 1⟩] 1
    (by norm_num) rfl rfl
    (by
      norm_num [checkAllCollisions, checkBoundaryCollision, checkPathCollision,
        getTilesAtPosition, findValidTile, List.filter, List.find?,
        noCollisionResult])

/-! C7: the perspective scale formula.  The clamped-formula equality holds
for all inputs, but the no-division-by-zero and monotonicity parts fail for
non-positive viewer distances: at `d = -0.001, z = 0` the denominator is
exactly `0`, and at `d = -1` the clamped scale rises from `1000/999` at
`z = 0` to `10` at `z = 0.9`.  They hold on positive viewer distances. -/

/-- C7 fails as stated for non-positive viewer distances: with
`d = -1` and depths `0 ≤ 0 ≤ 9/10`, the scale strictly increases
(`calculatePerspectiveScale 0 (-1) = 1000/999 < 10 =
calculatePerspectiveScale (9/10) (-1)`), refuting monotone non-increase in
`z ≥ 0`; and with `d = -0.001, z = 0` the formula's denominator
`d + max(z, 0) + 0.001` is exactly `0`, refuting "never divides by
zero". -/
theorem calculatePerspectiveScale_claim_counterexample :
    (0 : ℚ) ≤ 0 ∧ (0 : ℚ) ≤ 9/10 ∧
    calculatePerspectiveScale 0 (-1) <
      calculatePerspectiveScale (9/10) (-1) ∧
    (-(1/1000) : ℚ) + max (0 : ℚ) 0 + 1/1000 = 0 := by
  have h1 : calculatePerspectiveScale 0 (-1) = 1000/999 := by
    unfold calculatePerspectiveScale
    norm_num [min_def, max_def]
  have h2 : calculatePerspectiveScale (9/10) (-1) = 10 := by
    unfold calculatePerspectiveScale
    norm_num [min_def, max_def]
  refine ⟨le_refl 0, by norm_num, ?_, by norm_num⟩
  rw [h1, h2]
  norm_num

/-- C7 amended: for every depth `z` and viewer distance `d`,
`calculatePerspectiveScale(z, d)` equals `d / (d + max(z, 0) + 0.001)`
clamped to `[0.001, 10]` (negative depths are clamped to zero depth before
computing the scale); and for every positive viewer distance the
denominator is nonzero (no division by zero) and the scale is monotonically
non-increasing in `z` on `z ≥ 0`. -/
theorem calculatePerspectiveScale_spec_amended (z viewerDistance : ℚ) :
    calculatePerspectiveScale z viewerDistance =
      max (1/1000)
        (min 10 (viewerDistance / (viewerDistance + max z 0 + 1/1000))) ∧
    (0 < viewerDistance →
      viewerDistance + max z 0 + 1/1000 ≠ 0 ∧
      (∀ z', 0 ≤ z → z ≤ z' →
        calculatePerspectiveScale z' viewerDistance ≤
          calculatePerspectiveScale z viewerDistance)) := by
  have heq : ∀ w : ℚ, calculatePerspectiveScale w viewerDistance =
      max (1/1000)
        (min 10 (viewerDistance / (viewerDistance + max w 0 + 1/1000))) := by
    intro w
    unfold calculatePerspectiveScale
    rcases le_or_lt 0 w with hw | hw
    · rw [if_pos hw, max_eq_left hw]
    · rw [if_neg (not_le.mpr hw), max_eq_right (le_of_lt hw)]
  refine ⟨heq z, fun hd => ⟨by positivity, ?_⟩⟩
  intro z' h0 hzz
  rw [heq z, heq z']
  have hmax : max z 0 ≤ max z' 0 := max_le_max hzz le_rfl
  have hden : 0 < viewerDistance + max z 0 + 1/1000 := by positivity
  have hdiv : viewerDistance / (viewerDistance + max z' 0 + 1/1000) ≤
      viewerDistance / (viewerDistance + max z 0 + 1/1000) := by
    gcongr
  exact max_le_max le_rfl (min_le_min le_rfl hdiv)

/-- Witness for the amended C7 at a concrete input: depths 1 ≤ 2, viewer
distance 400. -/
theorem calculatePerspectiveScale_spec_amended_witness :
    calculatePerspectiveScale 1 400 =
      max (1/1000) (min 10 (400 / (400 + max (1 : ℚ) 0 + 1/1000))) ∧
    (400 : ℚ) + max (1 : ℚ) 0 + 1/1000 ≠ 0 ∧
    calculatePerspectiveScale 2 400 ≤ calculatePerspectiveScale 1 400 :=
  ⟨(calculatePerspectiveScale_spec_amended 1 400).1,
    ((calculatePerspectiveScale_spec_amended 1 400).2 (by norm_num)).1,
    ((calculatePerspectiveScale_spec_amended 1 400).2 (by norm_num)).2 2
      (by norm_num) (by norm_num)⟩

/-! C8: memoization is unobservable. -/

theorem cacheLookup_cons {α β : Type} [DecidableEq α] (e : α × β)
    (cache : List (α × β)) (k : α) :
    cacheLookup (e :: cache) k =
      if e.1 = k then some e.2 else cacheLookup cache k := by
  by_cases h : e.1 = k <;> simp [cacheLookup, List.find?_cons, h]

theorem cacheWF_empty : CacheWF ⟨[], [], 0⟩ := by
  constructor <;> intro k v h <;>
    simp [scaleLookup, pointLookup, cacheLookup] at h

theorem cacheWF_clear (s : PerspectiveCacheState) (h : CacheWF s) :
    CacheWF (clearCacheIfNeeded s) := by
  unfold clearCacheIfNeeded
  split
  · exact cacheWF_empty
  · exact h

theorem calculatePerspectiveScaleM_spec (z viewerDistance : ℚ)
    (s : PerspectiveCacheState) (h : CacheWF s) :
    (calculatePerspectiveScaleM z viewerDistance s).1 =
      calculatePerspectiveScale z viewerDistance ∧
    CacheWF (calculatePerspectiveScaleM z viewerDistance s).2 := by
  unfold calculatePerspectiveScaleM
  cases hl : scaleLookup s (z, viewerDistance) with
  | none =>
      exact ⟨rfl, cacheWF_clear _ ⟨by
        intro k v hk
        rw [scaleLookup, cacheLookup_cons] at hk
        by_cases hkk : (z, viewerDistance) = k
        · rw [if_pos hkk] at hk
          cases hk
          rw [← hkk]
        · rw [if_neg hkk] at hk
          exact h.1 k v hk,
        h.2⟩⟩
  | some v =>
      exact ⟨h.1 (z, viewerDistance) v hl, h⟩

theorem transformPerspectiveM_spec (x y perspectivePointX perspectivePointY
    height : ℚ) (s : PerspectiveCacheState) (h : CacheWF s) :
    (transformPerspectiveM x y perspectivePointX perspectivePointY height
        s).1 =
      transformPerspectivePure x y perspectivePointX perspectivePointY
        height ∧
    CacheWF (transformPerspectiveM x y perspectivePointX perspectivePointY
        height s).2 := by
  unfold transformPerspectiveM
  dsimp only
  cases hl : pointLookup s
      (x, y, perspectivePointX, perspectivePointY, height) with
  | none =>
      rcases calculatePerspectiveScaleM_spec
          ((1 - max 0 (min 1 (y / height))) * height) (height * (8/10)) s h
        with ⟨hval, hwf⟩
      constructor
      · dsimp only
        rw [hval]
        rfl
      · dsimp only
        refine cacheWF_clear _ ⟨hwf.1, ?_⟩
        intro k v hk
        rw [pointLookup, cacheLookup_cons] at hk
        by_cases hkk :
            (x, y, perspectivePointX, perspectivePointY, height) = k
        · rw [if_pos hkk] at hk
          cases hk
          rw [← hkk]
          dsimp only
          rw [hval]
          rfl
        · rw [if_neg hkk] at hk
          exact hwf.2 k v hk
  | some v =>
      exact ⟨h.2 _ v hl, h⟩

/-- C8: on every well-formed cache state (the initial empty state is well
formed and every call preserves well-formedness — including the clear-all
eviction), `transformPerspective` and `calculatePerspectiveScale` return
exactly their pure values, and a second call with identical arguments on
the resulting state returns the same value: caching is unobservable in the
output. -/
theorem perspective_memoization_unobservable (x y perspectivePointX
    perspectivePointY height z viewerDistance : ℚ)
    (s : PerspectiveCacheState) (hwf : CacheWF s) :
    (transformPerspectiveM x y perspectivePointX perspectivePointY height
        s).1 =
      transformPerspectivePure x y perspectivePointX perspectivePointY
        height ∧
    (transformPerspectiveM x y perspectivePointX perspectivePointY height
        (transformPerspectiveM x y perspectivePointX perspectivePointY
          height s).2).1 =
      (transformPerspectiveM x y perspectivePointX perspectivePointY height
        s).1 ∧
    (calculatePerspectiveScaleM z viewerDistance s).1 =
      calculatePerspectiveScale z viewerDistance ∧
    (calculatePerspectiveScaleM z viewerDistance
        (calculatePerspectiveScaleM z viewerDistance s).2).1 =
      (calculatePerspectiveScaleM z viewerDistance s).1 ∧
    CacheWF (transformPerspectiveM x y perspectivePointX perspectivePointY
        height s).2 ∧
    CacheWF (calculatePerspectiveScaleM z viewerDistance s).2 := by
  rcases transformPerspectiveM_spec x y perspectivePointX perspectivePointY
    height s hwf with ⟨ht1, hwt⟩
  rcases transformPerspectiveM_spec x y perspectivePointX perspectivePointY
    height _ hwt with ⟨ht2, _⟩
  rcases calculatePerspectiveScaleM_spec z viewerDistance s hwf with
    ⟨hs1, hws⟩
  rcases calculatePerspectiveScaleM_spec z viewerDistance _ hws with
    ⟨hs2, _⟩
  exact ⟨ht1, by rw [ht1, ht2], hs1, by rw [hs1, hs2], hwt, hws⟩

/-- Witness for C8 at a concrete input: the initial empty cache state (which
is well formed) and concrete arguments. -/
theorem perspective_memoization_unobservable_witness :
    (transformPerspectiveM 10 20 450 80 400 ⟨[], [], 0⟩).1 =
      transformPerspectivePure 10 20 450 80 400 ∧
    (transformPerspectiveM 10 20 450 80 400
        (transformPerspectiveM 10 20 450 80 400 ⟨[], [], 0⟩).2).1 =
      (transformPerspectiveM 10 20 450 80 400 ⟨[], [], 0⟩).1 ∧
    (calculatePerspectiveScaleM 100 400 ⟨[], [], 0⟩).1 =
      calculatePerspectiveScale 100 400 ∧
    (calculatePerspectiveScaleM 100 400
        (calculatePerspectiveScaleM 100 400 ⟨[], [], 0⟩).2).1 =
      (calculatePerspectiveScaleM 100 400 ⟨[], [], 0⟩).1 ∧
    CacheWF (transformPerspectiveM 10 20 450 80 400 ⟨[], [], 0⟩).2 ∧
    CacheWF (calculatePerspectiveScaleM 100 400 ⟨[], [], 0⟩).2 :=
  perspective_memoization_unobservable 10 20 450 80 400 100 400 ⟨[], [], 0⟩
    cacheWF_empty

/-! C9: the speed-progression policy of the game loop. -/

/-- C9: on every game-loop tick while playing, the scroll speed is
recomputed as `min(baseSpeed + floor(score / 500) * 20, baseSpeed * 2)`
with `baseSpeed = 240`, applied to the tick's resulting score; in
particular a resulting score of 1000 yields speed exactly 280. -/
theorem gameLoopTick_speed_policy (state : GameState) (tiles : List TileC)
    (deltaTime canvasHeight newShipPosition : ℚ) (draws : ℕ → ℚ)
    (hplay : state.gameStatus = GameStatus.playing) :
    (gameLoopTick state tiles deltaTime canvasHeight newShipPosition
        draws).1.speed =
      min (240 +
          ((⌊((gameLoopTick state tiles deltaTime canvasHeight
              newShipPosition draws).1.score : ℚ) / 500⌋ : ℤ) : ℚ) * 20)
        (240 * 2) ∧
    ((gameLoopTick state tiles deltaTime canvasHeight newShipPosition
        draws).1.score = 1000 →
      (gameLoopTick state tiles deltaTime canvasHeight newShipPosition
          draws).1.speed = 280) := by
  have hmain : (gameLoopTick state tiles deltaTime canvasHeight
      newShipPosition draws).1.speed =
      computeSpeed (gameLoopTick state tiles deltaTime canvasHeight
        newShipPosition draws).1.score := by
    unfold gameLoopTick
    rw [if_pos hplay]
  constructor
  · rw [hmain]
    unfold computeSpeed
    push_cast
    rfl
  · intro hscore
    rw [hmain, hscore]
    unfold computeSpeed
    norm_num

/-- Witness for C9 at a concrete input: a playing state that crosses a row
boundary on this tick and reaches score 1000, giving speed 280. -/
theorem gameLoopTick_speed_policy_witness :
    (gameLoopTick ⟨0, 0, 3, 240, 990, 3, GameStatus.playing, Option.none⟩ []
        1 100 3 (fun _ => 0)).1.speed =
      min (240 +
          ((⌊((gameLoopTick ⟨0, 0, 3, 240, 990, 3, GameStatus.playing,
              Option.none⟩ [] 1 100 3 (fun _ => 0)).1.score : ℚ) / 500⌋ :
            ℤ) : ℚ) * 20)
        (240 * 2) ∧
    ((gameLoopTick ⟨0, 0, 3, 240, 990, 3, GameStatus.playing, Option.none⟩
        [] 1 100 3 (fun _ => 0)).1.score = 1000 →
      (gameLoopTick ⟨0, 0, 3, 240, 990, 3, GameStatus.playing, Option.none⟩
          [] 1 100 3 (fun _ => 0)).1.speed = 280) :=
  gameLoopTick_speed_policy ⟨0, 0, 3, 240, 990, 3, GameStatus.playing,
    Option.none⟩ [] 1 100 3 (fun _ => 0) rfl

/-! C10: the tile window bound. -/

theorem genNewGo_length (draws : ℕ → ℚ) (lastX : ℚ) (lastY : ℤ)
    (i n : ℕ) : (genNewGo draws lastX lastY i n).length = n := by
  induction n generalizing lastX lastY i with
  | zero => rfl
  | succ m ih => simp [genNewGo, ih]

theorem genNewGo_row_ge (draws : ℕ → ℚ) (lastX : ℚ) (lastY : ℤ)
    (i n : ℕ) :
    ∀ tile ∈ genNewGo draws lastX lastY i n, (lastY : ℚ) ≤ tile.y := by
  induction n generalizing lastX lastY i with
  | zero => simp [genNewGo]
  | succ m ih =>
      intro tile htile
      rw [genNewGo] at htile
      rcases List.mem_cons.mp htile with rfl | htile
      · exact le_refl _
      · have := ih (clampLane (lastX + (randomStep (draws i) : ℚ)))
          (lastY + 1) (i + 1) tile htile
        have hcast : ((lastY : ℤ) : ℚ) ≤ ((lastY + 1 : ℤ) : ℚ) := by
          push_cast
          linarith
        linarith

theorem genInitGo_length (draws : ℕ → ℚ) (lastX : ℚ) (lastY : ℤ)
    (i n : ℕ) : (genInitGo draws lastX lastY i n).length = n := by
  induction n generalizing lastX lastY i with
  | zero => rfl
  | succ m ih =>
      rw [genInitGo]
      split
      · simp [ih]
      · simp [ih]

theorem genInitGo_row_ge (draws : ℕ → ℚ) (lastX : ℚ) (lastY : ℤ)
    (i n : ℕ) :
    ∀ tile ∈ genInitGo draws lastX lastY i n, (lastY : ℚ) ≤ tile.y := by
  induction n generalizing lastX lastY i with
  | zero => simp [genInitGo]
  | succ m ih =>
      intro tile htile
      have hcast : ((lastY : ℤ) : ℚ) ≤ ((lastY + 1 : ℤ) : ℚ) := by
        push_cast
        linarith
      rw [genInitGo] at htile
      split at htile
      · rcases List.mem_cons.mp htile with rfl | htile
        · exact le_refl _
        · have := ih lastX (lastY + 1) (i + 1) tile htile
          linarith
      · rcases List.mem_cons.mp htile with rfl | htile
        · exact le_refl _
        · have := ih (clampLane (lastX + (randomStep (draws i) : ℚ)))
            (lastY + 1) (i + 1) tile htile
          linarith

theorem liveTileCount_antitone (tiles : List TileC) (l l' : ℤ)
    (h : l ≤ l') : liveTileCount tiles l' ≤ liveTileCount tiles l := by
  unfold liveTileCount
  induction tiles with
  | nil => simp
  | cons t rest ih =>
      by_cases hp' : (l' : ℚ) ≤ t.y
      · have hp : (l : ℚ) ≤ t.y :=
          le_trans (by exact_mod_cast h) hp'
        simp only [List.filter_cons, hp, hp', decide_True]
        simpa using ih
      · by_cases hp : (l : ℚ) ≤ t.y
        · simp only [List.filter_cons, decide_eq_true_eq, hp', hp,
            if_true, if_false, ite_true, ite_false]
          simp only [List.length_cons]
          omega
        · simp only [List.filter_cons, decide_eq_true_eq, hp', hp,
            if_false, ite_false]
          exact ih

theorem generateInitialTiles_liveCount (loop0 : ℤ) (draws : ℕ → ℚ) :
    liveTileCount (generateInitialTiles loop0 draws) loop0 = 16 := by
  unfold liveTileCount generateInitialTiles
  rw [List.filter_eq_self.mpr, genInitGo_length]
  intro tile htile
  have hrow := genInitGo_row_ge draws 3 (loop0 + 1) 0 16 tile htile
  simp only [decide_eq_true_eq]
  have : ((loop0 : ℤ) : ℚ) ≤ ((loop0 + 1 : ℤ) : ℚ) := by
    push_cast
    linarith
  linarith

theorem generateTilesCoordinates_liveCount (prevTiles : List TileC)
    (currentYLoop : ℤ) (draws : ℕ → ℚ) :
    liveTileCount (generateTilesCoordinates prevTiles currentYLoop draws)
        currentYLoop =
      max (liveTileCount prevTiles currentYLoop) 16 := by
  unfold generateTilesCoordinates
  dsimp only
  by_cases hneed : (16 : ℤ) -
      (prevTiles.filter
        (fun tile => (currentYLoop : ℚ) ≤ tile.y)).length ≤ 0
  · rw [if_pos hneed]
    have h16 : 16 ≤ liveTileCount prevTiles currentYLoop := by
      unfold liveTileCount
      omega
    omega
  · rw [if_neg hneed]
    have hlt : liveTileCount prevTiles currentYLoop < 16 := by
      unfold liveTileCount
      omega
    unfold liveTileCount
    rw [List.filter_append]
    rw [List.filter_filter]
    have hfilter1 : (prevTiles.filter fun tile =>
        decide ((currentYLoop : ℚ) ≤ tile.y) &&
          decide ((currentYLoop : ℚ) ≤ tile.y)) =
        prevTiles.filter fun tile => (currentYLoop : ℚ) ≤ tile.y := by
      congr 1
      funext tile
      by_cases hp : (currentYLoop : ℚ) ≤ tile.y <;> simp [hp]
    rw [hfilter1]
    have hfilter2 : ((genNewGo draws
        (match (prevTiles.filter fun tile =>
            (currentYLoop : ℚ) ≤ tile.y).getLast? with
          | some tile => tile.x
          | Option.none => 3)
        (currentYLoop + 1) 0
        ((16 - ((prevTiles.filter fun tile =>
            (currentYLoop : ℚ) ≤ tile.y).length : ℤ)).toNat)).filter
          fun tile => decide ((currentYLoop : ℚ) ≤ tile.y)) =
        genNewGo draws
          (match (prevTiles.filter fun tile =>
              (currentYLoop : ℚ) ≤ tile.y).getLast? with
            | some tile => tile.x
            | Option.none => 3)
          (currentYLoop + 1) 0
          ((16 - ((prevTiles.filter fun tile =>
              (currentYLoop : ℚ) ≤ tile.y).length : ℤ)).toNat) := by
      rw [List.filter_eq_self]
      intro tile htile
      have hrow := genNewGo_row_ge draws _ (currentYLoop + 1) 0 _ tile htile
      simp only [decide_eq_true_eq]
      have : ((currentYLoop : ℤ) : ℚ) ≤ ((currentYLoop + 1 : ℤ) : ℚ) := by
        push_cast
        linarith
      linarith
    rw [hfilter2, List.length_append, genNewGo_length]
    unfold liveTileCount at hlt
    omega

theorem reachable_liveCount_le (tiles : List TileC) (loop : ℤ)
    (h : ReachableTiles tiles loop) : liveTileCount tiles loop ≤ 16 := by
  induction h with
  | init loop0 draws => rw [generateInitialTiles_liveCount]
  | step tiles loop loop' draws hr hle ih =>
      rw [generateTilesCoordinates_liveCount]
      have hanti := liveTileCount_antitone tiles loop loop' hle
      omega

/-- C10: after any trim-and-extend call of the window-maintenance function
on a tile list previously produced by the generator (at a `currentYLoop`
that has not decreased), the number of live tiles — tiles with row index at
least the current scroll row — lies within `[MIN_TILES, MAX_TILES] =
[16, 24]`. -/
theorem generateTilesCoordinates_window_bound (tiles : List TileC)
    (loop loop' : ℤ) (draws : ℕ → ℚ)
    (hreach : ReachableTiles tiles loop) (hle : loop ≤ loop') :
    16 ≤ liveTileCount (generateTilesCoordinates tiles loop' draws) loop' ∧
    liveTileCount (generateTilesCoordinates tiles loop' draws) loop' ≤ 24 := by
  rw [generateTilesCoordinates_liveCount]
  have h1 := liveTileCount_antitone tiles loop loop' hle
  have h2 := reachable_liveCount_le tiles loop hreach
  omega

/-- Witness for C10 at a concrete input: the freshly generated initial tile
list, re-extended at the same scroll row. -/
theorem generateTilesCoordinates_window_bound_witness :
    16 ≤ liveTileCount
        (generateTilesCoordinates (generateInitialTiles 0 (fun _ => 0)) 0
          (fun _ => 0)) 0 ∧
    liveTileCount
        (generateTilesCoordinates (generateInitialTiles 0 (fun _ => 0)) 0
          (fun _ => 0)) 0 ≤ 24 :=
  generateTilesCoordinates_window_bound (generateInitialTiles 0 (fun _ => 0))
    0 0 (fun _ => 0) (ReachableTiles.init 0 (fun _ => 0)) (le_refl 0)

/-! C1: continuity of consecutive rows.  The trim-and-extend call appends
its new tiles starting at row `currentYLoop + 1` while continuing the lane
from the last tile of the kept window, so an appended tile can sit next to
a much older row with a lane jump larger than 1 — exhibited below on a
concrete reachable tile list. -/

theorem genInitGo_eq_genNewGo (draws : ℕ → ℚ) (lastX : ℚ) (lastY : ℤ)
    (i n : ℕ) (h : 3 ≤ i) :
    genInitGo draws lastX lastY i n = genNewGo draws lastX lastY i n := by
  induction n generalizing lastX lastY i with
  | zero => rfl
  | succ m ih =>
      rw [genInitGo, genNewGo, if_neg (not_lt.mpr h)]
      dsimp only
      rw [ih _ (lastY + 1) (i + 1) (by omega)]

theorem genInitGo_start (draws : ℕ → ℚ) (x : ℚ) (y : ℤ) (n : ℕ) :
    genInitGo draws x y 0 (n + 1 + 1 + 1) =
      ⟨x, (y : ℚ)⟩ :: ⟨x, ((y + 1 : ℤ) : ℚ)⟩ ::
        ⟨x, ((y + 1 + 1 : ℤ) : ℚ)⟩ ::
        genNewGo draws x (y + 1 + 1 + 1) 3 n := by
  rw [genInitGo, if_pos (by norm_num : (0 : ℕ) < 3)]
  rw [genInitGo, if_pos (by norm_num : (0 + 1 : ℕ) < 3)]
  rw [genInitGo, if_pos (by norm_num : (0 + 1 + 1 : ℕ) < 3)]
  rw [genInitGo_eq_genNewGo draws x (y + 1 + 1 + 1) (0 + 1 + 1 + 1) n
    (by norm_num)]

/-- Random draws of the C1 scenario's initial generation: every draw `2/3`
gives lateral step `+1`. -/
def c1InitDraws : ℕ → ℚ := fun _ => 2/3

/-- Random draws of the C1 scenario's regeneration: every draw `1/3` gives
lateral step `0`. -/
def c1RegenDraws : ℕ → ℚ := fun _ => 1/3

/-- The C1 scenario tile list: one initial generation at `currentYLoop = 0`
followed by one trim-and-extend call at `currentYLoop = 2`. -/
def c1Tiles : List TileC :=
  generateTilesCoordinates (generateInitialTiles 0 c1InitDraws) 2
    c1RegenDraws

theorem c1InitialTiles_eq :
    generateInitialTiles 0 c1InitDraws =
      [⟨3, 1⟩, ⟨3, 2⟩, ⟨3, 3⟩, ⟨4, 4⟩, ⟨5, 5⟩, ⟨6, 6⟩, ⟨6, 7⟩, ⟨6, 8⟩,
        ⟨6, 9⟩, ⟨6, 10⟩, ⟨6, 11⟩, ⟨6, 12⟩, ⟨6, 13⟩, ⟨6, 14⟩, ⟨6, 15⟩,
        ⟨6, 16⟩] := by
  have hstart := genInitGo_start c1InitDraws 3 (0 + 1) 13
  norm_num at hstart
  unfold generateInitialTiles
  norm_num
  rw [hstart]
  norm_num [c1InitDraws, genNewGo, clampLane, randomStep]

set_option maxHeartbeats 1000000 in
theorem c1Tiles_eq :
    c1Tiles =
      [⟨3, 2⟩, ⟨3, 3⟩, ⟨4, 4⟩, ⟨5, 5⟩, ⟨6, 6⟩, ⟨6, 7⟩, ⟨6, 8⟩, ⟨6, 9⟩,
        ⟨6, 10⟩, ⟨6, 11⟩, ⟨6, 12⟩, ⟨6, 13⟩, ⟨6, 14⟩, ⟨6, 15⟩, ⟨6, 16⟩,
        ⟨6, 3⟩] := by
  unfold c1Tiles
  rw [c1InitialTiles_eq]
  norm_num [generateTilesCoordinates, List.filter, List.getLast?,
    c1RegenDraws, genNewGo, clampLane, randomStep]

/-- C1 fails on the code: the list `c1Tiles` is reachable by one initial
generation (at `currentYLoop = 0`) followed by one trim-and-extend
regeneration at the increased `currentYLoop = 2`, yet it contains the tiles
`(6, 3)` (appended by the regeneration) and `(4, 4)` (from the initial
generation) whose row indices are consecutive while their lane indices
differ by 2.  Neither tile belongs to the startup straight run, whose tiles
all have lane index 3. -/
theorem c1_continuity_violation :
    ReachableTiles c1Tiles 2 ∧
    ∃ t1 t2, t1 ∈ c1Tiles ∧ t2 ∈ c1Tiles ∧ t2.y = t1.y + 1 ∧
      1 < |t2.x - t1.x| ∧ t1.x ≠ 3 ∧ t2.x ≠ 3 := by
  constructor
  · exact ReachableTiles.step _ 0 2 c1RegenDraws
      (ReachableTiles.init 0 c1InitDraws) (by norm_num)
  · refine ⟨⟨6, 3⟩, ⟨4, 4⟩, ?_, ?_, by norm_num, ?_, by norm_num,
      by norm_num⟩
    · rw [c1Tiles_eq]
      norm_num [List.mem_cons]
    · rw [c1Tiles_eq]
      norm_num [List.mem_cons]
    · show (1 : ℚ) < |(4 : ℚ) - 6|
      rw [show (4 : ℚ) - 6 = -2 by norm_num, abs_neg]
      norm_num

end PerspectiveGame
